import Mathlib

/-!
Verification development for the `any` type-erasure library
(`include/any/any.hpp`). The definitions below are a shallow embedding of
the library's compile-time composition algebra and of the runtime state of
its value-proxy root, translated from the C++ source; theorems about the
spec's claims follow the definitions.
-/

/-! ## Composition algebra

An interface blueprint (`template <class Base> struct I : any::interface<I,
Base, extends<B1, ..., Bn>>`) is modelled as a nominal identifier together
with its ordered extension list. Two `Iface` values denote the same C++
interface template exactly when they are equal. -/

inductive Iface where
  | mk (id : Nat) (bases : List Iface)

def Iface.basesOf : Iface → List Iface
  | .mk _ bs => bs

def Iface.idOf : Iface → Nat
  | .mk i _ => i

mutual

def Iface.decEq : (a b : Iface) → Decidable (a = b)
  | .mk i bs, .mk j cs =>
    match Nat.decEq i j with
    | isFalse h => isFalse (fun he => by cases he; exact h rfl)
    | isTrue hij =>
      match Iface.decEqList bs cs with
      | isFalse h => isFalse (fun he => by cases he; exact h rfl)
      | isTrue hbc => isTrue (by rw [hij, hbc])

def Iface.decEqList : (as bs : List Iface) → Decidable (as = bs)
  | [], [] => isTrue rfl
  | [], _ :: _ => isFalse (fun h => by cases h)
  | _ :: _, [] => isFalse (fun h => by cases h)
  | x :: xs, y :: ys =>
    match Iface.decEq x y, Iface.decEqList xs ys with
    | isTrue h1, isTrue h2 => isTrue (by rw [h1, h2])
    | isFalse h1, _ => isFalse (fun h => by cases h; exact h1 rfl)
    | isTrue _, isFalse h2 => isFalse (fun h => by cases h; exact h2 rfl)

end

instance : DecidableEq Iface := Iface.decEq

/-- A composed dispatch chain over a root, outermost interface layer first.
The root itself contributes no layers: the `_has_box_kind` guard inside
`_already_implements` (any.hpp 475-478) makes the abstract chain that sits
underneath a proxy or object root invisible to the composition algebra, so
only the layers applied by the current fold count. -/
abbrev Chain := List Iface

mutual

/-- One step of `extends<BaseInterface, ...>::call` (any.hpp 496-504):
apply interface `b` to the chain `c`. First `BasesOfBase` is computed by
applying `b`'s own extension list to `c`; then, if `c` already implements
`b` (modelled as: `b` is one of the layers of `c`), the result is
`BasesOfBase` (the `_if_t` then-branch), otherwise `b` is layered on top of
`BasesOfBase`. -/
def applyOne (b : Iface) (c : Chain) : Chain :=
  match b with
  | .mk i bs =>
    let basesOfBase := applyExtends bs c
    if Iface.mk i bs ∈ c then basesOfBase else Iface.mk i bs :: basesOfBase
termination_by sizeOf b
decreasing_by simp_wf

/-- `extends<B1, ..., Bn>::call<Base>` (any.hpp 489-504): fold the ordered
extension list over the chain, `B1` applied first (innermost). -/
def applyExtends (bs : List Iface) (c : Chain) : Chain :=
  match bs with
  | [] => c
  | b :: rest => applyExtends rest (applyOne b c)
termination_by sizeOf bs
decreasing_by
  all_goals simp_wf
  all_goals omega

end

/-- A chain is closed when every layer's extension list is already present
in the chain. Every chain produced by folding `extends` over a closed chain
is closed, because an interface's bases are applied before the interface
itself. -/
def ChainClosed (c : Chain) : Prop :=
  ∀ b ∈ c, ∀ x ∈ b.basesOf, x ∈ c

/-! ### Concrete interfaces for the diamond-extension example
(mirrors `IBaz : extends<IFoo, IBar>` with both `IFoo` and `IBar`
extending `icopyable`, which extends `imovable`; part_002 102-147). -/

def iMovI : Iface := .mk 0 []
def iCopI : Iface := .mk 1 [iMovI]
def iFooI : Iface := .mk 2 [iCopI]
def iBarI : Iface := .mk 3 [iCopI]
def iBazI : Iface := .mk 4 [iFooI, iBarI]

/-! ## Runtime model of the value-proxy root

Concrete payload types are drawn from a small closed universe `Ty`; a typed
payload value is a `TVal`. The run-time type identifier of a wrapper is an
`Option Ty`, with `none` standing for `ANY_TYPEID(void)`, the "no type"
sentinel returned for empty wrappers. -/

inductive Ty where
  | tInt
  | tBool
  | tStr
  deriving DecidableEq

inductive TVal where
  | vInt (n : Int)
  | vBool (b : Bool)
  | vStr (s : String)
  deriving DecidableEq

def TVal.ty : TVal → Ty
  | .vInt _ => .tInt
  | .vBool _ => .tBool
  | .vStr _ => .tStr

/-- A `_value_model<Interface, Value>` instance together with the
compile-time attributes the storage engine consults. `size` is
`sizeof(Model)`; `movable` is `extension_of<Model, imovable>`;
`nothrowMove` is `std::is_nothrow_move_constructible_v<Model>`;
`copyThrows` says whether the concrete type's copy constructor can throw;
`moved` marks a moved-from instance; `vptr` is the value of the model's
vtable pointer (the first word of an in-place model; always even and
nonzero on real targets); `addr` is the (aligned, nonzero) address the
model gets when it is heap-allocated; `dataAddr` is the raw address of the
contained concrete value (`_data_`). -/
structure Model where
  size : Nat
  movable : Bool
  nothrowMove : Bool
  copyThrows : Bool
  moved : Bool
  vptr : Nat
  addr : Nat
  dataAddr : Nat
  val : TVal
  deriving DecidableEq

def Model.markMoved (m : Model) : Model := { m with moved := true }

/-- `_is_small<Model>(buffer_size)` (any.hpp 294-301): in-place storage is
allowed iff the model fits the buffer and is nothrow-movable whenever it is
movable at all. -/
def isSmall (m : Model) (bufferSize : Nat) : Bool :=
  decide (m.size ≤ bufferSize) && (!m.movable || m.nothrowMove)

/-- `_tagged_ptr()` default constructor (any.hpp 307-311): `data_ = 1`,
the null tagged pointer denoting the empty state. -/
def taggedPtrNull : Nat := 1

/-- `_tagged_ptr(void *ptr)` (any.hpp 313-317): a heap model pointer is
stored with its low bit set. -/
def taggedPtrOf (addr : Nat) : Nat := addr ||| 1

/-- `_tagged_ptr::_is_vptr` (any.hpp 326-330): the word is the start of an
embedded in-place instance (its vtable pointer) exactly when the low bit is
clear. -/
def wordIsVptr (w : Nat) : Bool := w % 2 == 0

/-- The first buffer word `_emplace_into` (any.hpp 508-533) leaves for a
model stored under capacity `cap`: the model's own vtable pointer when it
is constructed in place, a tagged heap pointer otherwise. -/
def Model.wordFor (m : Model) (cap : Nat) : Nat :=
  if isSmall m cap then m.vptr else taggedPtrOf m.addr

/-- Runtime state of a `_value_proxy_root<Interface>` (any.hpp 764-976):
the buffer capacity `iabstract<Interface>::_buffer_size`, the first buffer
word read as `_tagged_ptr`, and the payload model (wherever it is stored);
`payload = none` models the absence of any live model. -/
structure VProxy where
  cap : Nat
  word : Nat
  payload : Option Model
  deriving DecidableEq

/-- Default constructor `_value_proxy_root()` (any.hpp 774-785): the word
is the null tagged pointer and there is no payload. -/
def VProxy.init (cap : Nat) : VProxy := ⟨cap, taggedPtrNull, none⟩

/-- `_empty_` (any.hpp 925-936): the proxy is empty iff its tagged word
compares equal to `nullptr`, i.e. the word is exactly 1. -/
def VProxy.emptyB (p : VProxy) : Bool := p.word == taggedPtrNull

/-- `_in_situ_` (any.hpp 871-882): the payload is stored in place iff the
buffer word is a vtable pointer (low bit clear). -/
def VProxy.inSituB (p : VProxy) : Bool := wordIsVptr p.word

/-- `_reset_` (any.hpp 938-957): destroy/release the payload and restore
the null tagged word. -/
def VProxy.reset (p : VProxy) : VProxy :=
  { p with word := taggedPtrNull, payload := none }

/-- `_emplace_into<Model>` (any.hpp 508-533), runtime path: construct the
model in the buffer when `_is_small` holds, otherwise heap-allocate it and
store a tagged pointer to it in the buffer. -/
def VProxy.emplaceInto (p : VProxy) (m : Model) : VProxy :=
  { p with word := m.wordFor p.cap, payload := some m }

/-- Number of heap allocations `_emplace_into` performs. -/
def VProxy.emplaceAllocCount (p : VProxy) (m : Model) : Nat :=
  if isSmall m p.cap then 0 else 1

/-- Whether constructing the model into `p` by move can throw: in place,
only a throwing move constructor can throw; on the heap path the
allocation itself can fail. -/
def VProxy.emplaceMoveMayThrow (p : VProxy) (m : Model) : Bool :=
  if isSmall m p.cap then m.movable && !m.nothrowMove else true

/-- `emplace` (any.hpp 857-869): reset the current payload, then construct
the new model via `_emplace_into`. -/
def VProxy.emplace (p : VProxy) (m : Model) : VProxy :=
  (p.reset).emplaceInto m

/-- `_type_` (any.hpp 959-963): `ANY_TYPEID(void)` (here `none`) when
empty, the payload's type identifier otherwise. -/
def VProxy.typeIdB (p : VProxy) : Option Ty :=
  if p.emptyB then none
  else
    match p.payload with
    | some m => some m.val.ty
    | none => none

/-- `_data_` (any.hpp 965-969): null when empty, the raw address of the
stored concrete value otherwise. -/
def VProxy.dataB (p : VProxy) : Option Nat :=
  if p.emptyB then none
  else
    match p.payload with
    | some m => some m.dataAddr
    | none => none

/-- Well-formedness of a model's layout attributes: the vtable pointer and
heap address are aligned (even) and nonzero. -/
def Model.WFb (m : Model) : Bool :=
  (m.vptr % 2 == 0) && (m.vptr != 0) && (m.addr % 2 == 0) && (m.addr != 0)

/-- Well-formedness of a proxy state: an empty proxy holds the null tagged
word; a nonempty proxy's word is exactly what `_emplace_into` left for its
payload model. -/
def VProxy.WFb (p : VProxy) : Bool :=
  match p.payload with
  | none => p.word == taggedPtrNull
  | some m => m.WFb && (p.word == m.wordFor p.cap)

/-- Construction of `any<Interface>` from a concrete value (any.hpp
1517-1522): default-construct, then `_emplace_` the value's model. -/
def anyOfValue (cap : Nat) (m : Model) : VProxy :=
  (VProxy.init cap).emplace m

/-! ## Move construction and swap -/

/-- Move constructor `_value_proxy_root(_value_proxy_root &&)` (any.hpp
787-792): default-construct, then swap with the source. Returns the new
proxy, the source's state afterwards, the number of heap allocations, and
whether a throwing operation was executed. When the source holds a tagged
word (heap model or empty) the inner swap exchanges the words; when it is
in place, the source model is move-constructed into the new buffer and the
source keeps its (moved-from) model, since `_value_root::_reset_` is a
no-op (any.hpp 744-747, 581-587). -/
def VProxy.moveCtorFrom (p : VProxy) : VProxy × VProxy × Nat × Bool :=
  if !wordIsVptr p.word then
    (⟨p.cap, p.word, p.payload⟩, VProxy.init p.cap, 0, false)
  else
    match p.payload with
    | some m =>
      ((VProxy.init p.cap).emplaceInto m, { p with payload := some m.markMoved },
        (VProxy.init p.cap).emplaceAllocCount m, (VProxy.init p.cap).emplaceMoveMayThrow m)
    | none => (VProxy.init p.cap, p, 0, false)

/-- Result of `_value_proxy_root::swap`: the two proxies afterwards,
whether the raw tagged-word-swap branch was taken, how many heap
allocations were performed, and whether any executed operation could
throw. -/
structure SwapResult where
  fst : VProxy
  snd : VProxy
  rawWordSwap : Bool
  allocs : Nat
  mayThrow : Bool
  deriving DecidableEq

/-- `_value_proxy_root::swap` (any.hpp 826-855), runtime path. If both
tagged words are non-vptr (each side is heap-allocated or empty) the two
words are swapped; if one side is empty (and the other necessarily in
place), the in-place payload is move-constructed into the empty side's
buffer via `_move_to`, the source keeping a moved-from model; otherwise one
side is moved into a temporary and each original payload is moved into the
other side's buffer. The `this == &other` early-out is not modelled (the
model has no object identity). -/
def VProxy.swapF (s t : VProxy) : SwapResult :=
  if !wordIsVptr s.word && !wordIsVptr t.word then
    { fst := { s with word := t.word, payload := t.payload },
      snd := { t with word := s.word, payload := s.payload },
      rawWordSwap := true, allocs := 0, mayThrow := false }
  else if s.word == taggedPtrNull then
    match t.payload with
    | some m =>
      { fst := s.emplaceInto m, snd := { t with payload := some m.markMoved },
        rawWordSwap := false, allocs := s.emplaceAllocCount m,
        mayThrow := s.emplaceMoveMayThrow m }
    | none =>
      { fst := s, snd := t, rawWordSwap := false, allocs := 0, mayThrow := false }
  else if t.word == taggedPtrNull then
    match s.payload with
    | some m =>
      { fst := { s with payload := some m.markMoved }, snd := t.emplaceInto m,
        rawWordSwap := false, allocs := t.emplaceAllocCount m,
        mayThrow := t.emplaceMoveMayThrow m }
    | none =>
      { fst := s, snd := t, rawWordSwap := false, allocs := 0, mayThrow := false }
  else
    match s.moveCtorFrom, t.payload with
    | (temp, s1, a1, th1), some mt =>
      let s2 := s1.emplaceInto mt
      let a2 := s1.emplaceAllocCount mt
      let th2 := s1.emplaceMoveMayThrow mt
      let t1 : VProxy := { t with payload := some mt.markMoved }
      match temp.payload with
      | some ms =>
        { fst := s2, snd := t1.emplaceInto ms, rawWordSwap := false,
          allocs := a1 + a2 + t1.emplaceAllocCount ms,
          mayThrow := th1 || th2 || t1.emplaceMoveMayThrow ms }
      | none =>
        { fst := s2, snd := t1, rawWordSwap := false, allocs := a1 + a2,
          mayThrow := th1 || th2 }
    | (temp, s1, a1, th1), none =>
      match temp.payload with
      | some ms =>
        { fst := s1, snd := t.emplaceInto ms, rawWordSwap := false,
          allocs := a1 + t.emplaceAllocCount ms,
          mayThrow := th1 || t.emplaceMoveMayThrow ms }
      | none =>
        { fst := s1, snd := t, rawWordSwap := false, allocs := a1, mayThrow := th1 }

/-! ## Casts -/

/-- `_any_static_cast_t` (any.hpp 1296-1353): unchecked recovery. The C++
reinterprets the model pointer as a value root of the requested concrete
type; when the actual payload type differs the behaviour is undefined,
which the model renders as `none`. -/
def anyStaticCastInner (u : Ty) (p : VProxy) : Option TVal :=
  match p.payload with
  | some m => if m.val.ty = u then some m.val else none
  | none => none

/-- `_any_dynamic_cast_t` (any.hpp 1357-1366): compare the proxy's stored
type identity with the requested type's identity and delegate to the
unchecked cast on a match, returning null otherwise. -/
def anyDynamicCastInner (u : Ty) (p : VProxy) : Option TVal :=
  if p.typeIdB = some u then anyStaticCastInner u p else none

/-- Pointer form of the checked cast, `_basic_cast_t::operator()` over
`_any_dynamic_cast_t` (any.hpp 1373-1395, 1452-1458): a null argument or an
empty wrapper yields null before the inner cast runs. -/
def anyCastPtr (u : Ty) (pp : Option VProxy) : Option TVal :=
  match pp with
  | none => none
  | some p => if p.emptyB then none else anyDynamicCastInner u p

/-- Pointer form of the unchecked cast, `_basic_cast_t::operator()` over
`_any_static_cast_t` (any.hpp 1373-1395, 1462-1468): the same null/empty
screen precedes the unchecked path. -/
def anyStaticCastPtr (u : Ty) (pp : Option VProxy) : Option TVal :=
  match pp with
  | none => none
  | some p => if p.emptyB then none else anyStaticCastInner u p

inductive CastError where
  | badAnyCast
  deriving DecidableEq

/-- Reference form of the checked cast (any.hpp 1397-1428): run the pointer
form on the object's address and raise `bad_any_cast` (via
`_throw_bad_any_cast`, any.hpp 1280-1292) when it yields null. -/
def anyCastRef (u : Ty) (p : VProxy) : Except CastError TVal :=
  match anyCastPtr u (some p) with
  | none => .error .badAnyCast
  | some v => .ok v

/-! ## Equality capability -/

/-- `iequality_comparable::_equal_to` (any.hpp 1880-1894): mismatched type
identities are unequal; two `void` identities (both sides empty) are equal;
otherwise the right side is unchecked-cast to the left side's concrete type
and the concrete equality runs (the types being equal at that point, the
comparison is the native equality of the stored values). -/
def equalToB (a b : VProxy) : Bool :=
  if a.typeIdB ≠ b.typeIdB then false
  else if a.typeIdB = none then true
  else
    match a.payload, b.payload with
    | some ma, some mb => ma.val == mb.val
    | _, _ => false

/-! ## Assignment from a type-erased reference -/

/-- The source of `any::operator=(Interface<Other> const &)` with `Other`
of reference root kind: a type-erased reference. `isValueModel` records the
root kind of the model the reference designates (`true` when it directly
aliases another owning wrapper's `_value_model`, `false` when it holds a
`_reference_model` for a plain referenced object), which decides whether
`_slice_to_` moves or copies the payload (any.hpp 695-702). -/
structure RefSrc where
  isValueModel : Bool
  m : Model
  deriving DecidableEq

/-- Outcome of assigning a type-erased reference into an owning wrapper:
the destination afterwards, whether an exception escaped, and the state of
the referenced payload model afterwards. -/
structure AssignResult where
  dest : VProxy
  threw : Bool
  srcAfter : Model
  deriving DecidableEq

/-- `any::operator=(Interface<Other> const &)` for a reference-rooted
`Other` (any.hpp 1560-1575). The self-alias guard compares
`data(other) == data(*this)` first. Otherwise `temp._copy(other)` merely
memcpy-aliases the reference (any.hpp 1107-1117), `reset(*this)` destroys
the destination payload, and only then `_assign` slices: the terminal
`_slice_to_` (any.hpp 695-702) re-emplaces the referenced payload into the
destination, moving it out of a directly aliased value model
(`_move_if<is_value>`) and copying it from a reference model. A transfer
constructor that throws therefore leaves the destination already reset; the
partially-constructed in-place state is modelled as the reset state. -/
def assignFromRef (d : VProxy) (src : RefSrc) : AssignResult :=
  if some src.m.dataAddr = d.dataB then
    { dest := d, threw := false, srcAfter := src.m }
  else
    let d1 := d.reset
    let transferThrows :=
      if src.isValueModel then src.m.movable && !src.m.nothrowMove else src.m.copyThrows
    if transferThrows then
      { dest := d1, threw := true, srcAfter := src.m }
    else
      { dest := d1.emplaceInto src.m, threw := false,
        srcAfter := if src.isValueModel then src.m.markMoved else src.m }

/-! ## Pointer wrappers -/

/-- Observable state of the `_reference_proxy_model` inside an
`any_ptr`/`any_const_ptr` (any.hpp 1621-1739): `target` is
`data(reference_)`, i.e. the raw address of the referenced payload, or
`none` when the reference proxy is empty. -/
structure AnyPtrB where
  target : Option Nat
  deriving DecidableEq

/-- `_any_ptr_base(std::nullptr_t)` (any.hpp 1626-1629): the reference
proxy is default-constructed, hence empty. -/
def anyPtrOfNull : AnyPtrB := ⟨none⟩

/-- `_any_ptr_base::_proxy_assign` from a value-proxy pointer (any.hpp
1688-1703): a null pointer or an empty wrapper leaves the reference proxy
empty; otherwise the wrapper's payload model is bound and
`data(reference_)` is the payload's raw address. -/
def anyPtrOfProxy (pp : Option VProxy) : AnyPtrB :=
  match pp with
  | none => ⟨none⟩
  | some p => if p.emptyB then ⟨none⟩ else ⟨p.dataB⟩

/-- `_any_ptr_base::operator==` (any.hpp 1672-1677): two pointer wrappers
compare equal iff `data` of their reference proxies compare equal. -/
def ptrEqB (a b : AnyPtrB) : Bool := a.target == b.target

/-! ## Concrete example states -/

def mSmallA : Model :=
  { size := 8, movable := true, nothrowMove := true, copyThrows := false,
    moved := false, vptr := 2, addr := 8, dataAddr := 100, val := .vInt 1 }

def mSmallB : Model :=
  { size := 8, movable := true, nothrowMove := true, copyThrows := false,
    moved := false, vptr := 4, addr := 16, dataAddr := 200, val := .vInt 2 }

def mBigC : Model :=
  { size := 48, movable := true, nothrowMove := true, copyThrows := false,
    moved := false, vptr := 6, addr := 32, dataAddr := 300, val := .vStr "c" }

def sInSituEx : VProxy := (VProxy.init 24).emplace mSmallA

def tInSituEx : VProxy := (VProxy.init 24).emplace mSmallB

def sHeapEx : VProxy := (VProxy.init 24).emplace mBigC

def c8DestEx : VProxy :=
  (VProxy.init 24).emplace
    { size := 8, movable := true, nothrowMove := true, copyThrows := false,
      moved := false, vptr := 2, addr := 8, dataAddr := 310, val := .vInt 5 }

def c8SrcEx : RefSrc :=
  { isValueModel := false,
    m := { size := 8, movable := true, nothrowMove := true, copyThrows := true,
           moved := false, vptr := 6, addr := 16, dataAddr := 410, val := .vBool true } }

/-! ## Helper lemmas -/

/-- Joint properties of the composition fold, proved by strong induction on
the size of the interface being applied: monotonicity of chain membership,
a bound on newly added layers, self-membership, the identity law on chains
that already implement the applied interface, closure preservation, and
duplicate-freedom preservation. -/
theorem applyProps : ∀ n : Nat,
    (∀ b : Iface, sizeOf b ≤ n → ∀ c : Chain,
        (∀ x ∈ c, x ∈ applyOne b c)
      ∧ (∀ x ∈ applyOne b c, x ∈ c ∨ sizeOf x ≤ sizeOf b)
      ∧ b ∈ applyOne b c
      ∧ (ChainClosed c → b ∈ c → applyOne b c = c)
      ∧ (ChainClosed c → ChainClosed (applyOne b c))
      ∧ (ChainClosed c → c.Nodup → (applyOne b c).Nodup))
  ∧ (∀ bs : List Iface, sizeOf bs ≤ n → ∀ c : Chain,
        (∀ x ∈ c, x ∈ applyExtends bs c)
      ∧ (∀ x ∈ applyExtends bs c, x ∈ c ∨ ∃ b ∈ bs, sizeOf x ≤ sizeOf b)
      ∧ (∀ b ∈ bs, b ∈ applyExtends bs c)
      ∧ (ChainClosed c → (∀ b ∈ bs, b ∈ c) → applyExtends bs c = c)
      ∧ (ChainClosed c → ChainClosed (applyExtends bs c))
      ∧ (ChainClosed c → c.Nodup → (applyExtends bs c).Nodup)) := by
  intro n
  induction n using Nat.strong_induction_on with
  | _ n ih =>
    constructor
    · rintro ⟨i, bs⟩ hb c
      have hbsn : sizeOf bs < n := by
        have := Iface.mk.sizeOf_spec i bs
        omega
      obtain ⟨mono2, new2, self2, id2, cl2, nd2⟩ :=
        (ih (sizeOf bs) hbsn).2 bs (Nat.le_refl _) c
      by_cases hmem : Iface.mk i bs ∈ c
      · rw [applyOne, if_pos hmem]
        refine ⟨mono2, ?_, mono2 _ hmem, ?_, cl2, nd2⟩
        · intro x hx
          rcases new2 x hx with h | ⟨b', hb', hle⟩
          · exact Or.inl h
          · have := List.sizeOf_lt_of_mem hb'
            have := Iface.mk.sizeOf_spec i bs
            right; omega
        · intro hcl _
          exact id2 hcl (fun b' hb' => hcl _ hmem b' (by simpa [Iface.basesOf] using hb'))
      · rw [applyOne, if_neg hmem]
        have hnotin : Iface.mk i bs ∉ applyExtends bs c := by
          intro hin
          rcases new2 _ hin with h | ⟨b', hb', hle⟩
          · exact hmem h
          · have := List.sizeOf_lt_of_mem hb'
            have := Iface.mk.sizeOf_spec i bs
            omega
        refine ⟨?_, ?_, List.mem_cons_self _ _, ?_, ?_, ?_⟩
        · intro x hx; exact List.mem_cons_of_mem _ (mono2 x hx)
        · intro x hx
          rcases List.mem_cons.mp hx with rfl | hx'
          · exact Or.inr (Nat.le_refl _)
          · rcases new2 x hx' with h | ⟨b', hb', hle⟩
            · exact Or.inl h
            · have := List.sizeOf_lt_of_mem hb'
              have := Iface.mk.sizeOf_spec i bs
              right; omega
        · intro _ hmem'; exact absurd hmem' hmem
        · intro hcl
          intro y hy x hx
          rcases List.mem_cons.mp hy with rfl | hy'
          · exact List.mem_cons_of_mem _ (self2 x (by simpa [Iface.basesOf] using hx))
          · exact List.mem_cons_of_mem _ (cl2 hcl y hy' x hx)
        · intro hcl hnd
          exact List.Nodup.cons hnotin (nd2 hcl hnd)
    · rintro (_ | ⟨b, rest⟩) hbs c
      · simp only [applyExtends]
        refine ⟨fun x hx => hx, fun x hx => Or.inl hx, ?_, fun _ _ => trivial, fun h => h,
          fun _ h => h⟩
        intro b hb; exact absurd hb (List.not_mem_nil b)
      · have hbn : sizeOf b < n := by
          have := List.cons.sizeOf_spec b rest
          omega
        have hrestn : sizeOf rest < n := by
          have := List.cons.sizeOf_spec b rest
          omega
        obtain ⟨mono1, new1, self1, id1, cl1, nd1⟩ := (ih (sizeOf b) hbn).1 b (Nat.le_refl _) c
        obtain ⟨mono2, new2, self2, id2, cl2, nd2⟩ :=
          (ih (sizeOf rest) hrestn).2 rest (Nat.le_refl _) (applyOne b c)
        rw [applyExtends]
        refine ⟨?_, ?_, ?_, ?_, ?_, ?_⟩
        · intro x hx; exact mono2 x (mono1 x hx)
        · intro x hx
          rcases new2 x hx with h | ⟨b', hb', hle⟩
          · rcases new1 x h with h' | hle'
            · exact Or.inl h'
            · exact Or.inr ⟨b, List.mem_cons_self _ _, hle'⟩
          · exact Or.inr ⟨b', List.mem_cons_of_mem _ hb', hle⟩
        · intro b' hb'
          rcases List.mem_cons.mp hb' with rfl | hb''
          · exact mono2 _ self1
          · exact self2 _ hb''
        · intro hcl hall
          have h1 : applyOne b c = c := id1 hcl (hall b (List.mem_cons_self _ _))
          rw [h1]
          obtain ⟨_, _, _, id2', _, _⟩ := (ih (sizeOf rest) hrestn).2 rest (Nat.le_refl _) c
          exact id2' hcl (fun b' hb' => hall b' (List.mem_cons_of_mem _ hb'))
        · intro hcl; exact cl2 (cl1 hcl)
        · intro hcl hnd; exact nd2 (cl1 hcl) (nd1 hcl hnd)

theorem taggedPtrOf_mod_two (a : Nat) : taggedPtrOf a % 2 = 1 :=
  Nat.or_mod_two_eq_one.mpr (Or.inr rfl)

theorem taggedPtrOf_of_even (a : Nat) (h : a % 2 = 0) : taggedPtrOf a = a + 1 := by
  have h1 : taggedPtrOf a % 2 = 1 := taggedPtrOf_mod_two a
  have h2 : taggedPtrOf a / 2 = a / 2 := by
    unfold taggedPtrOf
    rw [Nat.or_div_two]
    simp
  unfold taggedPtrOf at h1 h2 ⊢
  omega

/-- Canonical case analysis of a well-formed proxy state. -/
theorem wfCases (p : VProxy) (h : p.WFb = true) :
    (p.word = taggedPtrNull ∧ p.payload = none) ∨
    ∃ m, p.payload = some m ∧ m.WFb = true ∧
      ((isSmall m p.cap = true ∧ p.word = m.vptr) ∨
       (isSmall m p.cap = false ∧ p.word = taggedPtrOf m.addr)) := by
  unfold VProxy.WFb at h
  match hp : p.payload with
  | none =>
    rw [hp] at h
    exact Or.inl ⟨by simpa using h, rfl⟩
  | some m =>
    rw [hp] at h
    simp only [Bool.and_eq_true, beq_iff_eq] at h
    refine Or.inr ⟨m, rfl, h.1, ?_⟩
    by_cases hs : isSmall m p.cap
    · exact Or.inl ⟨hs, by rw [h.2, Model.wordFor, if_pos hs]⟩
    · exact Or.inr ⟨by simpa using hs, by rw [h.2, Model.wordFor, if_neg hs]⟩

theorem modelWF_facts (m : Model) (h : m.WFb = true) :
    m.vptr % 2 = 0 ∧ m.vptr ≠ 0 ∧ m.addr % 2 = 0 ∧ m.addr ≠ 0 := by
  unfold Model.WFb at h
  simp only [Bool.and_eq_true, beq_iff_eq, bne_iff_ne, ne_eq] at h
  exact ⟨h.1.1.1, h.1.1.2, h.1.2, h.2⟩

/-- The word a well-formed model leaves in the buffer is never the null
tagged pointer, and it is a vptr exactly when the model is stored small. -/
theorem wordFor_facts (m : Model) (cap : Nat) (h : m.WFb = true) :
    m.wordFor cap ≠ taggedPtrNull ∧ wordIsVptr (m.wordFor cap) = isSmall m cap := by
  obtain ⟨hv2, hv0, ha2, ha0⟩ := modelWF_facts m h
  unfold Model.wordFor taggedPtrNull
  by_cases hs : isSmall m cap
  · rw [if_pos hs, hs]
    constructor
    · omega
    · simp [wordIsVptr, hv2]
  · rw [if_neg hs]
    have := taggedPtrOf_of_even m.addr ha2
    constructor
    · omega
    · simp only [Bool.not_eq_true] at hs
      rw [hs]
      simp [wordIsVptr, this]
      omega

theorem emplace_state (p : VProxy) (m : Model) :
    (p.emplace m).word = m.wordFor p.cap ∧ (p.emplace m).payload = some m ∧
    (p.emplace m).cap = p.cap := by
  simp [VProxy.emplace, VProxy.emplaceInto, VProxy.reset]

theorem emplace_not_empty (p : VProxy) (m : Model) (hm : m.WFb = true) :
    (p.emplace m).emptyB = false := by
  obtain ⟨hw, _, _⟩ := emplace_state p m
  unfold VProxy.emptyB
  rw [hw]
  simpa using (wordFor_facts m p.cap hm).1

theorem emplace_wf (p : VProxy) (m : Model) (hm : m.WFb = true) :
    (p.emplace m).WFb = true := by
  simp [VProxy.emplace, VProxy.emplaceInto, VProxy.reset, VProxy.WFb, hm]

/-! ## Claim theorems -/

/-- C2: composing the dispatch chain applies the bases of the extension
list in list order (the fold equation); applying a base that the chain
already satisfies is the identity transform; on closed duplicate-free
chains the composed chain stays duplicate-free, so each distinct base
interface appears exactly once; and in the concrete diamond example
(`iBazI` extends `iFooI` and `iBarI`, which both extend `iCopI`), the
common base `iCopI` occurs exactly once in the composed chain. -/
theorem c2_composition_dedup (b : Iface) (rest : List Iface) (c : Chain)
    (hcl : ChainClosed c) (hnd : c.Nodup) :
    applyExtends (b :: rest) c = applyExtends rest (applyOne b c)
  ∧ (b ∈ c → applyOne b c = c)
  ∧ (applyExtends (b :: rest) c).Nodup
  ∧ ChainClosed (applyExtends (b :: rest) c)
  ∧ b ∈ applyOne b c
  ∧ applyOne iBazI [] = [iBazI, iBarI, iFooI, iCopI, iMovI]
  ∧ (applyOne iBazI []).count iCopI = 1 := by
  have hP := applyProps (sizeOf b + sizeOf (b :: rest))
  have h1 := (hP.1 b (by omega) c).2.2.2.1
  have h2 := (hP.2 (b :: rest) (by omega) c)
  refine ⟨by rw [applyExtends], fun hb => h1 hcl hb, h2.2.2.2.2.2 hcl hnd,
    h2.2.2.2.2.1 hcl, (hP.1 b (by omega) c).2.2.1, ?_, ?_⟩
  · simp [applyOne, applyExtends, iMovI, iCopI, iFooI, iBarI, iBazI]
  · simp [applyOne, applyExtends, iMovI, iCopI, iFooI, iBarI, iBazI, List.count_cons]

/-- Witness for C2 at concrete inputs: the empty chain is closed and
duplicate-free, and the theorem applies to it. -/
theorem c2_composition_dedup_witness :
    ChainClosed []
  ∧ ([] : Chain).Nodup
  ∧ (applyExtends [iCopI] [] = applyExtends [] (applyOne iCopI [])
  ∧ (iCopI ∈ ([] : Chain) → applyOne iCopI [] = [])
  ∧ (applyExtends [iCopI] []).Nodup
  ∧ ChainClosed (applyExtends [iCopI] [])
  ∧ iCopI ∈ applyOne iCopI []
  ∧ applyOne iBazI [] = [iBazI, iBarI, iFooI, iCopI, iMovI]
  ∧ (applyOne iBazI []).count iCopI = 1) := by
  have hcl : ChainClosed [] := by intro b hb; exact absurd hb (List.not_mem_nil b)
  have hnd : ([] : Chain).Nodup := List.nodup_nil
  exact ⟨hcl, hnd, c2_composition_dedup iCopI [] [] hcl hnd⟩

theorem typeIdB_emplaced (p : VProxy) (m : Model) (hm : m.WFb = true) :
    (p.emplace m).typeIdB = some m.val.ty := by
  have he := emplace_not_empty p m hm
  obtain ⟨_, hpl, _⟩ := emplace_state p m
  unfold VProxy.typeIdB
  rw [he, hpl]
  simp

theorem cast_emplaced (p : VProxy) (m : Model) (hm : m.WFb = true) (u : Ty) :
    anyCastPtr u (some (p.emplace m)) = if m.val.ty = u then some m.val else none := by
  have he := emplace_not_empty p m hm
  have ht := typeIdB_emplaced p m hm
  obtain ⟨_, hpl, _⟩ := emplace_state p m
  by_cases h : m.val.ty = u
  · simp [anyCastPtr, anyDynamicCastInner, anyStaticCastInner, he, ht, hpl, h]
  · simp [anyCastPtr, anyDynamicCastInner, anyStaticCastInner, he, ht, hpl, h, Ne.symm h]

/-- C1: a concrete value wrapped into an owning wrapper (by construction,
which emplaces the value's model into a fresh proxy, or by emplace into any
existing proxy) is recovered by the checked cast at its own type, both in
the pointer form and in the reference form, and the checked cast at every
other concrete type fails (null pointer, resp. `bad_any_cast`). -/
theorem c1_roundtrip_cast (cap : Nat) (m : Model) (hm : m.WFb = true) (p : VProxy) :
    anyCastPtr m.val.ty (some (anyOfValue cap m)) = some m.val
  ∧ anyCastRef m.val.ty (anyOfValue cap m) = Except.ok m.val
  ∧ (∀ u : Ty, u ≠ m.val.ty →
       anyCastPtr u (some (anyOfValue cap m)) = none
     ∧ anyCastRef u (anyOfValue cap m) = Except.error CastError.badAnyCast)
  ∧ anyCastPtr m.val.ty (some (p.emplace m)) = some m.val := by
  have h1 := cast_emplaced (VProxy.init cap) m hm m.val.ty
  have h4 := cast_emplaced p m hm m.val.ty
  rw [if_pos rfl] at h1 h4
  refine ⟨h1, ?_, ?_, h4⟩
  · unfold anyCastRef anyOfValue
    rw [h1]
  · intro u hu
    have h2 := cast_emplaced (VProxy.init cap) m hm u
    rw [if_neg (fun h => hu h.symm)] at h2
    exact ⟨h2, by unfold anyCastRef anyOfValue; rw [h2]⟩

/-- Witness for C1: wrapping the integer 5 and casting back. -/
theorem c1_roundtrip_cast_witness :
    anyCastPtr Ty.tInt (some (anyOfValue 24 mSmallA)) = some (TVal.vInt 1)
  ∧ anyCastPtr Ty.tBool (some (anyOfValue 24 mSmallA)) = none := by
  have h := c1_roundtrip_cast 24 mSmallA (by decide) (VProxy.init 24)
  exact ⟨h.1, (h.2.2.1 Ty.tBool (by decide)).1⟩

/-- C3: at emplace time the payload model is stored in place exactly when
it fits the buffer capacity and is either not movable-capable or has a
nonthrowing move constructor; in every other case the model is
heap-allocated (one allocation) and the buffer stores a tagged pointer to
it. -/
theorem c3_storage_selection (p : VProxy) (m : Model) (hm : m.WFb = true) :
    ((p.emplace m).inSituB = true ↔
       (m.size ≤ p.cap ∧ (m.movable = false ∨ m.nothrowMove = true)))
  ∧ ((p.emplace m).inSituB = false →
       (p.emplace m).word = taggedPtrOf m.addr ∧ (p.emplace m).payload = some m
     ∧ (p.reset).emplaceAllocCount m = 1)
  ∧ ((p.emplace m).inSituB = true →
       (p.emplace m).word = m.vptr ∧ (p.reset).emplaceAllocCount m = 0) := by
  obtain ⟨hw, hpl, hcap⟩ := emplace_state p m
  have hv := (wordFor_facts m p.cap hm).2
  have hin : (p.emplace m).inSituB = isSmall m p.cap := by
    unfold VProxy.inSituB
    rw [hw]
    exact hv
  have hsmall : isSmall m p.cap = true ↔
      (m.size ≤ p.cap ∧ (m.movable = false ∨ m.nothrowMove = true)) := by
    unfold isSmall
    simp [Bool.and_eq_true, Bool.or_eq_true, Bool.not_eq_true']
  refine ⟨by rw [hin]; exact hsmall, ?_, ?_⟩
  · intro hno
    rw [hin] at hno
    refine ⟨?_, hpl, ?_⟩
    · rw [hw]
      unfold Model.wordFor
      rw [if_neg (by simp [hno])]
    · unfold VProxy.emplaceAllocCount VProxy.reset
      simp [hno]
  · intro hyes
    rw [hin] at hyes
    constructor
    · rw [hw]
      unfold Model.wordFor
      rw [if_pos hyes]
    · unfold VProxy.emplaceAllocCount VProxy.reset
      simp [hyes]

/-- Witness for C3: a small nothrow-movable model lands in place, an
oversized one goes to the heap with a tagged pointer. -/
theorem c3_storage_selection_witness :
    ((VProxy.init 24).emplace mSmallA).inSituB = true
  ∧ ((VProxy.init 24).emplace mBigC).word = taggedPtrOf mBigC.addr := by
  refine ⟨?_, ?_⟩
  · exact (c3_storage_selection (VProxy.init 24) mSmallA (by decide)).1.mpr (by decide)
  · exact ((c3_storage_selection (VProxy.init 24) mBigC (by decide)).2.1 (by decide)).1

/-- C4 as stated is false: the claim says a set low bit marks an embedded
in-place instance and a clear low bit a heap pointer, but in the code a
payload emplaced in place leaves a word with the low bit clear (the model's
vtable pointer), and a heap-allocated payload leaves a word with the low
bit set. -/
theorem c4_tag_polarity_counterexample :
    sInSituEx.inSituB = true ∧ sInSituEx.word % 2 = 0
  ∧ sHeapEx.emptyB = false ∧ sHeapEx.inSituB = false ∧ sHeapEx.word % 2 = 1 := by
  decide

/-- C4 amended: in the tagged-pointer word of the value-proxy root, a
clear low bit means the word is itself the start of an embedded in-place
instance (its vtable pointer); a set low bit means the word holds a tagged
pointer to a heap-allocated instance; and the default value (low bit set,
pointer bits zero, i.e. the word 1) denotes the empty state. -/
theorem c4_tagged_word_amended (p : VProxy) (cap : Nat) (h : p.WFb = true) :
    (p.inSituB = true ↔ p.word % 2 = 0)
  ∧ (p.emptyB = true ↔ p.word = taggedPtrNull)
  ∧ (p.word % 2 = 1 → p.word ≠ taggedPtrNull →
       ∃ m, p.payload = some m ∧ p.word = taggedPtrOf m.addr ∧ isSmall m p.cap = false)
  ∧ (VProxy.init cap).emptyB = true ∧ (VProxy.init cap).word = taggedPtrNull
  ∧ taggedPtrNull = taggedPtrOf 0 := by
  refine ⟨?_, ?_, ?_, rfl, rfl, by decide⟩
  · unfold VProxy.inSituB wordIsVptr
    simp
  · unfold VProxy.emptyB
    simp
  · intro hodd hne
    rcases wfCases p h with ⟨hw, _⟩ | ⟨m, hpl, hmwf, hcase⟩
    · exact absurd hw hne
    · rcases hcase with ⟨hs, hw⟩ | ⟨hs, hw⟩
      · obtain ⟨hv2, _, _, _⟩ := modelWF_facts m hmwf
        rw [hw] at hodd
        omega
      · exact ⟨m, hpl, hw, hs⟩

/-- Witness for C4 amended at a concrete well-formed heap-stored state. -/
theorem c4_tagged_word_amended_witness :
    sHeapEx.WFb = true
  ∧ (sHeapEx.inSituB = true ↔ sHeapEx.word % 2 = 0)
  ∧ (sHeapEx.emptyB = true ↔ sHeapEx.word = taggedPtrNull) := by
  have hwf : sHeapEx.WFb = true := by decide
  have h := c4_tagged_word_amended sHeapEx 24 hwf
  exact ⟨hwf, h.1, h.2.1⟩

theorem typeIdB_nonempty (q : VProxy) (hq : q.WFb = true) (hne : q.emptyB = false) :
    ∃ m, q.payload = some m ∧ q.typeIdB = some m.val.ty := by
  rcases wfCases q hq with ⟨hw, _⟩ | ⟨m, hpl, _, _⟩
  · unfold VProxy.emptyB at hne
    rw [hw] at hne
    simp at hne
  · refine ⟨m, hpl, ?_⟩
    unfold VProxy.typeIdB
    rw [hne, hpl]
    simp

/-- C6: a default-constructed owning wrapper is empty and its type
identity is the "no type" sentinel; under the equality-comparable
capability two empty wrappers compare equal, and an empty wrapper compares
unequal to every non-empty one, in both argument orders. -/
theorem c6_empty_wrapper_invariants (c1 c2 : Nat) (q : VProxy)
    (hq : q.WFb = true) (hne : q.emptyB = false) :
    (VProxy.init c1).emptyB = true
  ∧ (VProxy.init c1).typeIdB = none
  ∧ equalToB (VProxy.init c1) (VProxy.init c2) = true
  ∧ equalToB (VProxy.init c1) q = false
  ∧ equalToB q (VProxy.init c1) = false := by
  obtain ⟨m, hpl, hty⟩ := typeIdB_nonempty q hq hne
  have hinit : ∀ c : Nat, (VProxy.init c).typeIdB = none := fun c => rfl
  refine ⟨rfl, rfl, ?_, ?_, ?_⟩
  · unfold equalToB
    rw [hinit c1, hinit c2]
    simp
  · unfold equalToB
    rw [hinit c1, hty]
    simp
  · unfold equalToB
    rw [hinit c1, hty]
    simp

/-- Witness for C6 with a concrete non-empty wrapper. -/
theorem c6_empty_wrapper_invariants_witness :
    sInSituEx.WFb = true ∧ sInSituEx.emptyB = false
  ∧ equalToB (VProxy.init 24) (VProxy.init 16) = true
  ∧ equalToB (VProxy.init 24) sInSituEx = false := by
  have h := c6_empty_wrapper_invariants 24 16 sInSituEx (by decide) (by decide)
  exact ⟨by decide, by decide, h.2.2.1, h.2.2.2.1⟩

/-- C7: when the checked cast's target concrete type differs from the
wrapper's stored type identity, the pointer form returns null and the
reference form raises `bad_any_cast`; on an identity match the checked cast
computes exactly what the unchecked cast computes. -/
theorem c7_checked_mismatch (u : Ty) (p : VProxy) (m : Model)
    (hp : p.WFb = true) (hm : p.payload = some m) :
    (m.val.ty ≠ u →
       anyCastPtr u (some p) = none
     ∧ anyCastRef u p = Except.error CastError.badAnyCast)
  ∧ (p.typeIdB = some u → anyCastPtr u (some p) = anyStaticCastPtr u (some p)) := by
  constructor
  · intro hne
    by_cases he : p.emptyB = true
    · constructor
      · simp [anyCastPtr, he]
      · unfold anyCastRef
        simp [anyCastPtr, he]
    · have he' : p.emptyB = false := by simpa using he
      obtain ⟨m', hpl', hty⟩ := typeIdB_nonempty p hp he'
      rw [hm] at hpl'
      cases hpl'
      have hcast : anyCastPtr u (some p) = none := by
        simp [anyCastPtr, he', anyDynamicCastInner, hty, hne]
      exact ⟨hcast, by unfold anyCastRef; rw [hcast]⟩
  · intro hty
    by_cases he : p.emptyB = true
    · simp [anyCastPtr, anyStaticCastPtr, he]
    · have he' : p.emptyB = false := by simpa using he
      simp [anyCastPtr, anyStaticCastPtr, he', anyDynamicCastInner, hty]

/-- Witness for C7: casting a wrapped integer to bool fails through both
forms, and on a type match the checked and unchecked casts agree. -/
theorem c7_checked_mismatch_witness :
    anyCastPtr Ty.tBool (some sInSituEx) = none
  ∧ anyCastRef Ty.tBool sInSituEx = Except.error CastError.badAnyCast
  ∧ anyCastPtr Ty.tInt (some sInSituEx) = anyStaticCastPtr Ty.tInt (some sInSituEx) := by
  have h := c7_checked_mismatch Ty.tBool sInSituEx mSmallA (by decide) (by decide)
  have h2 := c7_checked_mismatch Ty.tInt sInSituEx mSmallA (by decide) (by decide)
  exact ⟨(h.1 (by decide)).1, (h.1 (by decide)).2, h2.2 (by decide)⟩

/-- C9: every pointer-accepting form of both the checked and the unchecked
cast returns null on a null argument pointer and on a pointer to an empty
wrapper, for every target type and regardless of any payload state. -/
theorem c9_null_and_empty_cast (u : Ty) (p : VProxy) (he : p.emptyB = true) :
    anyCastPtr u none = none
  ∧ anyStaticCastPtr u none = none
  ∧ anyCastPtr u (some p) = none
  ∧ anyStaticCastPtr u (some p) = none := by
  refine ⟨rfl, rfl, ?_, ?_⟩
  · simp [anyCastPtr, he]
  · simp [anyStaticCastPtr, he]

/-- Witness for C9 at an empty wrapper. -/
theorem c9_null_and_empty_cast_witness :
    anyCastPtr Ty.tInt (some (VProxy.init 24)) = none
  ∧ anyStaticCastPtr Ty.tInt (some (VProxy.init 24)) = none := by
  have h := c9_null_and_empty_cast Ty.tInt (VProxy.init 24) (by decide)
  exact ⟨h.2.2.1, h.2.2.2⟩

/-- C10: two pointer wrappers compare equal exactly when the `data`
addresses of what they reference are equal (two non-empty sources compare
equal iff the payload addresses are equal); binding a pointer wrapper to a
null source or to an empty wrapper leaves it empty, so a pointer taken from
an empty owning wrapper compares equal to one constructed from nullptr. -/
theorem c10_pointer_wrapper_equality (a b : AnyPtrB) (p q r : VProxy) (cap : Nat)
    (hp : p.emptyB = true) (hq : q.emptyB = false) (hr : r.emptyB = false) :
    (ptrEqB a b = true ↔ a.target = b.target)
  ∧ (ptrEqB (anyPtrOfProxy (some q)) (anyPtrOfProxy (some r)) = true ↔ q.dataB = r.dataB)
  ∧ anyPtrOfProxy none = anyPtrOfNull
  ∧ anyPtrOfProxy (some p) = anyPtrOfNull
  ∧ ptrEqB (anyPtrOfProxy (some (VProxy.init cap))) anyPtrOfNull = true := by
  refine ⟨?_, ?_, rfl, ?_, ?_⟩
  · unfold ptrEqB
    simp
  · unfold anyPtrOfProxy ptrEqB
    simp [hq, hr]
  · unfold anyPtrOfProxy anyPtrOfNull
    simp [hp]
  · rfl

/-- Witness for C10 with a concrete empty and concrete non-empty
wrappers. -/
theorem c10_pointer_wrapper_equality_witness :
    anyPtrOfProxy (some (VProxy.init 24)) = anyPtrOfNull
  ∧ (ptrEqB (anyPtrOfProxy (some sInSituEx)) (anyPtrOfProxy (some tInSituEx)) = true ↔
       sInSituEx.dataB = tInSituEx.dataB) := by
  have h := c10_pointer_wrapper_equality anyPtrOfNull anyPtrOfNull (VProxy.init 24)
    sInSituEx tInSituEx 24 (by decide) (by decide) (by decide)
  exact ⟨h.2.2.2.1, h.2.1⟩

/-- C8 as stated is false: the claim says the referenced payload is copied
into a temporary before the destination's payload is destroyed, so that a
throwing copy leaves the destination with its original payload. In the
code the temporary only aliases the reference; the deep transfer happens in
`_slice_to_` after `reset(*this)`, so at a concrete input with a throwing
copy constructor the destination ends up empty, not with its original
payload. -/
theorem c8_defensive_copy_counterexample :
    c8SrcEx.m.copyThrows = true
  ∧ c8SrcEx.isValueModel = false
  ∧ (assignFromRef c8DestEx c8SrcEx).threw = true
  ∧ ¬((assignFromRef c8DestEx c8SrcEx).dest = c8DestEx)
  ∧ (assignFromRef c8DestEx c8SrcEx).dest.emptyB = true
  ∧ c8DestEx.emptyB = false := by
  decide

/-- C8 amended: assigning a type-erased reference into an owning wrapper
first checks for self-aliasing (`data(other) == data(*this)`) and leaves
the destination unchanged on a match; otherwise it aliases the reference
into a temporary without copying the payload, destroys the destination's
payload, and only then transfers the referenced payload into the
destination — copying it when the reference designates a plain referenced
object, moving it (and leaving the source moved-from) when it directly
aliases another owning wrapper's value model. If the transfer constructor
throws, the destination is left empty rather than retaining its original
payload. -/
theorem c8_assign_from_reference_amended (d : VProxy) (src : RefSrc) :
    (some src.m.dataAddr = d.dataB →
       assignFromRef d src = { dest := d, threw := false, srcAfter := src.m })
  ∧ (some src.m.dataAddr ≠ d.dataB → src.isValueModel = false → src.m.copyThrows = true →
       (assignFromRef d src).threw = true
     ∧ (assignFromRef d src).dest = d.reset
     ∧ (assignFromRef d src).dest.payload = none)
  ∧ (some src.m.dataAddr ≠ d.dataB → src.isValueModel = false → src.m.copyThrows = false →
       (assignFromRef d src).threw = false
     ∧ (assignFromRef d src).dest.payload = some src.m
     ∧ (assignFromRef d src).srcAfter = src.m)
  ∧ (some src.m.dataAddr ≠ d.dataB → src.isValueModel = true → src.m.movable = true →
       src.m.nothrowMove = true →
       (assignFromRef d src).threw = false
     ∧ (assignFromRef d src).dest.payload = some src.m
     ∧ (assignFromRef d src).srcAfter = src.m.markMoved) := by
  refine ⟨?_, ?_, ?_, ?_⟩
  · intro halias
    simp [assignFromRef, halias]
  · intro halias hval hthrow
    simp [assignFromRef, halias, hval, hthrow, VProxy.reset]
  · intro halias hval hthrow
    simp [assignFromRef, halias, hval, hthrow, VProxy.reset, VProxy.emplaceInto]
  · intro halias hval hmov hnt
    simp [assignFromRef, halias, hval, hmov, hnt, VProxy.reset, VProxy.emplaceInto]

/-- Witness for C8 amended: the self-alias case and the successful copy
case at concrete inputs. -/
theorem c8_assign_from_reference_amended_witness :
    (assignFromRef c8DestEx { c8SrcEx with m := { c8SrcEx.m with dataAddr := 310 } } =
      { dest := c8DestEx, threw := false,
        srcAfter := { c8SrcEx.m with dataAddr := 310 } })
  ∧ ((assignFromRef c8DestEx { c8SrcEx with m := { c8SrcEx.m with copyThrows := false } }).dest.payload
       = some { c8SrcEx.m with copyThrows := false }) := by
  have h1 := (c8_assign_from_reference_amended c8DestEx
    { c8SrcEx with m := { c8SrcEx.m with dataAddr := 310 } }).1 (by decide)
  have h2 := ((c8_assign_from_reference_amended c8DestEx
    { c8SrcEx with m := { c8SrcEx.m with copyThrows := false } }).2.2.1
    (by decide) (by decide) (by decide)).2.1
  exact ⟨h1, h2⟩

theorem isSmall_no_throwing_move (m : Model) (cap : Nat) (h : isSmall m cap = true) :
    (m.movable && !m.nothrowMove) = false := by
  unfold isSmall at h
  revert h
  cases m.movable <;> cases m.nothrowMove <;> simp

theorem wordIsVptr_null : wordIsVptr taggedPtrNull = false := by decide

theorem wordIsVptr_vptr (m : Model) (h : m.WFb = true) : wordIsVptr m.vptr = true := by
  obtain ⟨hv2, _, _, _⟩ := modelWF_facts m h
  simp [wordIsVptr, hv2]

theorem wordIsVptr_tagged (m : Model) : wordIsVptr (taggedPtrOf m.addr) = false := by
  have h := taggedPtrOf_mod_two m.addr
  unfold wordIsVptr
  rw [h]
  rfl

theorem vptr_ne_null (m : Model) (h : m.WFb = true) : (m.vptr == taggedPtrNull) = false := by
  obtain ⟨hv2, hv0, _, _⟩ := modelWF_facts m h
  simp [taggedPtrNull]
  omega

theorem tagged_ne_null (m : Model) (h : m.WFb = true) :
    (taggedPtrOf m.addr == taggedPtrNull) = false := by
  obtain ⟨_, _, ha2, ha0⟩ := modelWF_facts m h
  have he := taggedPtrOf_of_even m.addr ha2
  rw [he]
  simp [taggedPtrNull]
  omega


/-- C5 as stated is false: the claim says that when both sides hold their
payload in place the raw buffer bytes are swapped, but the code's raw
tagged-word-swap branch fires only when both sides are NOT in place (heap
or empty); two in-place payloads take the move-into-temporary path
instead, as this concrete pair of in-place states shows (no allocation and
no throwing operation happens there, though). -/
theorem c5_in_place_swap_counterexample :
    sInSituEx.inSituB = true ∧ tInSituEx.inSituB = true
  ∧ (sInSituEx.swapF tInSituEx).rawWordSwap = false
  ∧ (sInSituEx.swapF tInSituEx).allocs = 0
  ∧ (sInSituEx.swapF tInSituEx).mayThrow = false
  ∧ sHeapEx.inSituB = false ∧ (VProxy.init 24).inSituB = false
  ∧ (sHeapEx.swapF (VProxy.init 24)).rawWordSwap = true := by
  decide

/-- C5 amended: swap of two value-proxy roots (of equal buffer capacity)
is symmetric in its outcome and proceeds as follows — if both sides are
NOT in place (each heap-allocated or empty) the two raw tagged words are
swapped with no allocation and no throwing operation; if one side is empty
and the other in place, the in-place payload is moved directly into the
empty side's buffer (the source keeping a moved-from model); otherwise one
side is moved into a temporary and each original payload is moved into the
other side's buffer. Swap between two in-place payloads exchanges the
payloads, never allocates, and never executes a throwing operation. -/
theorem c5_swap_amended (s t : VProxy) (hs : s.WFb = true) (ht : t.WFb = true)
    (hcap : s.cap = t.cap) :
    ((s.swapF t).rawWordSwap = true ↔ (s.inSituB = false ∧ t.inSituB = false))
  ∧ (s.inSituB = false → t.inSituB = false →
       (s.swapF t).fst = { s with word := t.word, payload := t.payload }
     ∧ (s.swapF t).snd = { t with word := s.word, payload := s.payload }
     ∧ (s.swapF t).allocs = 0 ∧ (s.swapF t).mayThrow = false)
  ∧ (s.emptyB = true → t.inSituB = true →
       ∃ m, t.payload = some m
     ∧ (s.swapF t).fst = s.emplaceInto m
     ∧ (s.swapF t).snd = { t with payload := some m.markMoved }
     ∧ (s.swapF t).allocs = 0 ∧ (s.swapF t).mayThrow = false)
  ∧ (s.inSituB = true → t.inSituB = true →
       (s.swapF t).fst.payload = t.payload ∧ (s.swapF t).snd.payload = s.payload
     ∧ (s.swapF t).allocs = 0 ∧ (s.swapF t).mayThrow = false)
  ∧ ((s.swapF t).fst = (t.swapF s).snd ∧ (s.swapF t).snd = (t.swapF s).fst) := by
  rcases wfCases s hs with ⟨hsw, hsp⟩ | ⟨ms, hsp, hmswf, ⟨hssm, hsw⟩ | ⟨hssm, hsw⟩⟩ <;>
    rcases wfCases t ht with ⟨htw, htp⟩ | ⟨mt, htp, hmtwf, ⟨htsm, htw⟩ | ⟨htsm, htw⟩⟩ <;>
    simp only [VProxy.swapF, VProxy.moveCtorFrom, VProxy.emplaceInto,
      VProxy.emplaceAllocCount, VProxy.emplaceMoveMayThrow, VProxy.emplace,
      VProxy.init, VProxy.emptyB, VProxy.inSituB, Model.wordFor,
      hsw, htw, hsp, htp, hcap, wordIsVptr_null, beq_self_eq_true]
  case _ =>
    simp
  case _ =>
    have h1 := wordIsVptr_vptr mt hmtwf
    have h2 := vptr_ne_null mt hmtwf
    have h3 : isSmall mt t.cap = true := htsm
    have h4 := isSmall_no_throwing_move mt t.cap htsm
    simp [h1, h2, h3, h4]
  case _ =>
    have h1 := wordIsVptr_tagged mt
    have h2 := tagged_ne_null mt hmtwf
    simp [h1, h2, wordIsVptr_null]
  case _ =>
    have h1 := wordIsVptr_vptr ms hmswf
    have h2 := vptr_ne_null ms hmswf
    have h3 : isSmall ms t.cap = true := by rw [← hcap]; exact hssm
    have h4 := isSmall_no_throwing_move ms t.cap h3
    simp [h1, h2, h3, h4, wordIsVptr_null]
  case _ =>
    have h1 := wordIsVptr_vptr ms hmswf
    have h2 := vptr_ne_null ms hmswf
    have h3 : isSmall ms t.cap = true := by rw [← hcap]; exact hssm
    have h4 := isSmall_no_throwing_move ms t.cap h3
    have h5 := wordIsVptr_vptr mt hmtwf
    have h6 := vptr_ne_null mt hmtwf
    have h7 : isSmall mt t.cap = true := htsm
    have h8 := isSmall_no_throwing_move mt t.cap htsm
    simp [h1, h2, h3, h4, h5, h6, h7, h8]
  case _ =>
    have h1 := wordIsVptr_vptr ms hmswf
    have h2 := vptr_ne_null ms hmswf
    have h3 : isSmall ms t.cap = true := by rw [← hcap]; exact hssm
    have h4 := isSmall_no_throwing_move ms t.cap h3
    have h5 := wordIsVptr_tagged mt
    have h6 := tagged_ne_null mt hmtwf
    have h7 : isSmall mt t.cap = false := htsm
    simp [h1, h2, h3, h4, h5, h6, h7]
  case _ =>
    have h1 := wordIsVptr_tagged ms
    have h2 := tagged_ne_null ms hmswf
    simp [h1, h2, wordIsVptr_null]
  case _ =>
    have h1 := wordIsVptr_tagged ms
    have h2 := tagged_ne_null ms hmswf
    have h3 : isSmall ms t.cap = false := by rw [← hcap]; exact hssm
    have h5 := wordIsVptr_vptr mt hmtwf
    have h6 := vptr_ne_null mt hmtwf
    have h7 : isSmall mt t.cap = true := htsm
    have h8 := isSmall_no_throwing_move mt t.cap htsm
    simp [h1, h2, h3, h5, h6, h7, h8]
  case _ =>
    have h1 := wordIsVptr_tagged ms
    have h2 := tagged_ne_null ms hmswf
    have h5 := wordIsVptr_tagged mt
    have h6 := tagged_ne_null mt hmtwf
    simp [h1, h2, h5, h6]

/-- Witness for C5 amended at two concrete in-place states. -/
theorem c5_swap_amended_witness :
    ((sInSituEx.swapF tInSituEx).rawWordSwap = true ↔
       (sInSituEx.inSituB = false ∧ tInSituEx.inSituB = false))
  ∧ ((sInSituEx.swapF tInSituEx).fst.payload = tInSituEx.payload
  ∧ (sInSituEx.swapF tInSituEx).snd.payload = sInSituEx.payload
  ∧ (sInSituEx.swapF tInSituEx).allocs = 0
  ∧ (sInSituEx.swapF tInSituEx).mayThrow = false) := by
  have h := c5_swap_amended sInSituEx tInSituEx (by decide) (by decide) (by decide)
  exact ⟨h.1, h.2.2.2.1 (by decide) (by decide)⟩
